import Mathlib

/-!
Verification of the viewport intersection multiplexer and the pure helper
functions of this repository fragment (layout-rect geometry and the
loading-priority enum), as a shallow embedding in Lean 4.

Sources embedded:
- src/src/core/dom/layout/viewport-observer.js: createViewportObserver,
  observeIntersections, unobserveIntersections, ioCallback, and the two
  module-level weak-map registries.
- src/unnamed/part_002: Loading_Enum, ORDER, MAP, reducer.
- src/unnamed/part_001: layoutRectLtwh, moveLayoutRect.

Modelling conventions: DOM elements, windows and callback functions are
identified by natural numbers; JS numbers are rationals; the per-window
IntersectionObserver primitives are identified by allocation order (a
counter), and every call into a primitive (construction, observe,
unobserve) is recorded in an event log so that call counts can be stated.
All registration, dispatch and unregistration is synchronous; dispatch is
modelled as a pure function from the registry state and an entry batch to
the chronological list of callback invocations, since ioCallback reads but
never writes the registries.
-/

/-! ## Generic association-list helpers (the WeakMap operations used) -/

/-- Lookup in an association list by key: the model of WeakMap.get. -/
def alookup {α β : Type} [DecidableEq α] : List (α × β) → α → Option β
  | [], _ => none
  | (k, v) :: rest, a => if k = a then some v else alookup rest a

/-- Replace-or-insert by key: the model of WeakMap.set (and of mutating in
place the array stored under a key). -/
def aset {α β : Type} [DecidableEq α] : List (α × β) → α → β → List (α × β)
  | [], a, b => [(a, b)]
  | (k, v) :: rest, a, b => if k = a then (a, b) :: rest else (k, v) :: aset rest a b

/-- Delete a key: the model of WeakMap.delete. -/
def adel {α β : Type} [DecidableEq α] : List (α × β) → α → List (α × β)
  | [], _ => []
  | (k, v) :: rest, a => if k = a then adel rest a else (k, v) :: adel rest a

/-- Remove the first occurrence of an element from a list. -/
def removeFirst {α : Type} [DecidableEq α] : List α → α → List α
  | [], _ => []
  | x :: xs, a => if x = a then xs else x :: removeFirst xs a

/-- Modelled from the spec: removeItem (imported from core/types/array, a
file not present under src/) removes a single occurrence — the first — of a
value from an ordered sequence and reports whether removal occurred. -/
def removeItem {α : Type} [DecidableEq α] (l : List α) (a : α) : List α × Bool :=
  (removeFirst l a, decide (a ∈ l))

theorem alookup_aset_self {α β : Type} [DecidableEq α]
    (l : List (α × β)) (a : α) (b : β) : alookup (aset l a b) a = some b := by
  induction l with
  | nil => simp [aset, alookup]
  | cons p rest ih =>
    by_cases h : p.1 = a
    · simp [aset, alookup, h]
    · simpa [aset, alookup, h] using ih

theorem alookup_aset_ne {α β : Type} [DecidableEq α]
    (l : List (α × β)) (a x : α) (b : β) (hx : x ≠ a) :
    alookup (aset l a b) x = alookup l x := by
  induction l with
  | nil =>
    simp only [aset, alookup]
    rw [if_neg (fun h => hx h.symm)]
  | cons p rest ih =>
    rcases p with ⟨k, v⟩
    by_cases h : k = a
    · subst h
      simp only [aset, if_pos rfl, alookup]
      rw [if_neg (fun h2 => hx h2.symm), if_neg (fun h2 => hx h2.symm)]
    · simp only [aset, if_neg h, alookup]
      by_cases h2 : k = x
      · rw [if_pos h2, if_pos h2]
      · rw [if_neg h2, if_neg h2, ih]

theorem alookup_adel_self {α β : Type} [DecidableEq α]
    (l : List (α × β)) (a : α) : alookup (adel l a) a = none := by
  induction l with
  | nil => rfl
  | cons p rest ih =>
    rcases p with ⟨k, v⟩
    by_cases h : k = a
    · simp only [adel, if_pos h]
      exact ih
    · simp only [adel, if_neg h, alookup]
      exact ih

theorem alookup_adel_ne {α β : Type} [DecidableEq α]
    (l : List (α × β)) (a x : α) (hx : x ≠ a) :
    alookup (adel l a) x = alookup l x := by
  induction l with
  | nil => rfl
  | cons p rest ih =>
    rcases p with ⟨k, v⟩
    by_cases h : k = a
    · simp only [adel, if_pos h, alookup]
      rw [if_neg (by rw [h]; exact fun h2 => hx h2.symm)]
      exact ih
    · simp only [adel, if_neg h, alookup]
      by_cases h2 : k = x
      · rw [if_pos h2, if_pos h2]
      · rw [if_neg h2, if_neg h2]
        exact ih

theorem removeFirst_of_not_mem {α : Type} [DecidableEq α]
    (l : List α) (a : α) (h : a ∉ l) : removeFirst l a = l := by
  induction l with
  | nil => rfl
  | cons x xs ih =>
    have hxa : ¬ x = a := fun he => h (he ▸ List.mem_cons_self x xs)
    have hxs : a ∉ xs := fun hm => h (List.mem_cons_of_mem x hm)
    simp [removeFirst, hxa, ih hxs]

theorem count_removeFirst_self {α : Type} [DecidableEq α]
    (l : List α) (a : α) (h : a ∈ l) :
    (removeFirst l a).count a = l.count a - 1 := by
  induction l with
  | nil => cases h
  | cons x xs ih =>
    by_cases hxa : x = a
    · simp [removeFirst, hxa, List.count_cons_self]
    · have hm : a ∈ xs := by
        rcases List.mem_cons.mp h with h1 | h1
        · exact absurd h1.symm hxa
        · exact h1
      have hne : ¬ (x == a) = true := by simpa using hxa
      have hp : 1 ≤ xs.count a := List.one_le_count_iff.mpr hm
      simp [removeFirst, hxa, List.count_cons, hne, ih hm]

theorem not_mem_removeFirst_of_count_le_one {α : Type} [DecidableEq α]
    (l : List α) (a : α) (h : l.count a ≤ 1) : a ∉ removeFirst l a := by
  by_cases hm : a ∈ l
  · have := count_removeFirst_self l a hm
    have hz : (removeFirst l a).count a = 0 := by omega
    exact List.count_eq_zero.mp hz
  · rw [removeFirst_of_not_mem l a hm]; exact hm

/-! ## Loading enum and its reducer (src/unnamed/part_002) -/

/-- The ORDER array of the source: Loading_Enum values by ascending
priority. -/
def ORDER : List String := ["auto", "lazy", "eager", "unload"]

/-- The MAP object of the source: each Loading_Enum value to its ordinal. -/
def MAP : List (String × Nat) :=
  [("auto", 0), ("lazy", 1), ("eager", 2), ("unload", 3)]

/-- The JS expression MAP[v] || 0: an absent key yields undefined, which the
logical-or collapses to 0 exactly like the stored ordinal 0 of "auto". -/
def ordinal (v : String) : Nat := (alookup MAP v).getD 0

/-- The reducer of the source: ORDER indexed at the larger ordinal. The
default string stands for the out-of-range result JS would give as
undefined; the theorems show it is never produced. -/
def reducer (v1 v2 : String) : String :=
  ORDER.getD (max (ordinal v1) (ordinal v2)) "undefined"

/-- Canonical form of a loading value: an enum value maps to itself, any
other string to "auto" (ordinal 0). Used to state which input reducer
returns. -/
def canonLoading (v : String) : String := ORDER.getD (ordinal v) "undefined"

theorem ordinal_lt_four (v : String) : ordinal v < 4 := by
  unfold ordinal MAP
  simp only [alookup]
  split_ifs <;> simp

theorem ordinal_eq_zero_of_not_mem (v : String) (h : v ∉ ORDER) : ordinal v = 0 := by
  unfold ORDER at h
  simp only [List.mem_cons, not_or] at h
  unfold ordinal MAP
  simp only [alookup]
  rw [if_neg (fun he => h.1 he.symm), if_neg (fun he => h.2.1 he.symm),
    if_neg (fun he => h.2.2.1 he.symm), if_neg (fun he => h.2.2.2.1 he.symm)]
  rfl

theorem getD_ORDER_mem (n : Nat) (h : n < 4) : ORDER.getD n "undefined" ∈ ORDER := by
  interval_cases n <;> simp [ORDER]

/-- C9: reducer returns the input with the higher priority ordinal in the
order auto < lazy < eager < unload (unknown strings canonicalised to auto,
ordinal 0); it is commutative and always returns one of the four enum
values. -/
theorem reducer_commutative_max_of_ordinals (v1 v2 : String) :
    reducer v1 v2 = reducer v2 v1 ∧
    reducer v1 v2 ∈ ORDER ∧
    reducer v1 v2 = canonLoading (if ordinal v2 ≤ ordinal v1 then v1 else v2) ∧
    (canonLoading v1 = v1 ∨ (v1 ∉ ORDER ∧ canonLoading v1 = "auto")) := by
  refine ⟨?_, ?_, ?_, ?_⟩
  · unfold reducer; rw [max_comm]
  · exact getD_ORDER_mem _ (max_lt (ordinal_lt_four v1) (ordinal_lt_four v2))
  · unfold reducer canonLoading
    by_cases h : ordinal v2 ≤ ordinal v1
    · rw [if_pos h, max_eq_left h]
    · rw [if_neg h, max_eq_right (Nat.le_of_lt (Nat.lt_of_not_le h))]
  · by_cases hm : v1 ∈ ORDER
    · left
      unfold ORDER at hm
      rcases List.mem_cons.mp hm with h | h
      · subst h; rfl
      rcases List.mem_cons.mp h with h | h
      · subst h; rfl
      rcases List.mem_cons.mp h with h | h
      · subst h; rfl
      rcases List.mem_cons.mp h with h | h
      · subst h; rfl
      · cases h
    · right
      refine ⟨hm, ?_⟩
      unfold canonLoading
      rw [ordinal_eq_zero_of_not_mem v1 hm]
      rfl

/-! ## Layout rectangles (src/unnamed/part_001) -/

/-- A LayoutRectDef: the record produced by layoutRectLtwh, with the
derived bottom, right, x and y fields stored alongside. -/
structure LayoutRectDef where
  left : Rat
  top : Rat
  width : Rat
  height : Rat
  bottom : Rat
  right : Rat
  x : Rat
  y : Rat
deriving DecidableEq, Repr

/-- layoutRectLtwh of the source: build a layout rect from left, top,
width, height. -/
def layoutRectLtwh (l t w h : Rat) : LayoutRectDef :=
  { left := l, top := t, width := w, height := h,
    bottom := t + h, right := l + w, x := l, y := t }

/-- moveLayoutRect of the source: return the rect unchanged when dx and dy
are both zero or when the rect has zero width and zero height, otherwise a
fresh rect shifted by dx, dy. -/
def moveLayoutRect (rect : LayoutRectDef) (dx dy : Rat) : LayoutRectDef :=
  if (dx = 0 ∧ dy = 0) ∨ (rect.width = 0 ∧ rect.height = 0) then rect
  else layoutRectLtwh (rect.left + dx) (rect.top + dy) rect.width rect.height

/-- C10: moveLayoutRect returns the original rect unchanged when dx and dy
are both zero, and also whenever the rect has zero width and zero height
regardless of dx and dy; in every other case it returns the rect rebuilt
with left and top shifted by dx and dy and width and height unchanged. -/
theorem moveLayoutRect_zero_size_and_shift (rect : LayoutRectDef) (dx dy : Rat) :
    ((dx = 0 ∧ dy = 0) → moveLayoutRect rect dx dy = rect) ∧
    ((rect.width = 0 ∧ rect.height = 0) → moveLayoutRect rect dx dy = rect) ∧
    (¬ (dx = 0 ∧ dy = 0) → ¬ (rect.width = 0 ∧ rect.height = 0) →
      moveLayoutRect rect dx dy =
        layoutRectLtwh (rect.left + dx) (rect.top + dy) rect.width rect.height) := by
  refine ⟨fun h => ?_, fun h => ?_, fun h1 h2 => ?_⟩
  · unfold moveLayoutRect; rw [if_pos (Or.inl h)]
  · unfold moveLayoutRect; rw [if_pos (Or.inr h)]
  · unfold moveLayoutRect
    rw [if_neg]
    rintro (h | h)
    · exact h1 h
    · exact h2 h

/-! ## Viewport intersection multiplexer (viewport-observer.js)

Elements, windows, dispatch functions and subscriber callbacks are
identified by natural numbers. The per-window IntersectionObserver
primitives are identified by allocation order via a counter; observe and
unobserve calls into a primitive, and primitive construction, are recorded
in a chronological event log. -/

abbrev Element := Nat

abbrev Window := Nat

abbrev Callback := Nat

/-- A threshold option: a single number or an ordered sequence. -/
inductive ThresholdV where
  | single (r : Rat)
  | multiple (rs : List Rat)
deriving DecidableEq, Repr

/-- The aspects of a Window that createViewportObserver consults: whether
isIframed holds for it and the identity of its document. -/
structure WinModel where
  iframed : Bool
  documentId : Nat
deriving DecidableEq, Repr

/-- The opts parameter of createViewportObserver; an absent field is
none (undefined in JS, falsy where a boolean is expected). -/
structure IOOptions where
  threshold : Option ThresholdV
  needsRootBounds : Option Bool
deriving DecidableEq, Repr

/-- The init dictionary handed to the IntersectionObserver constructor. -/
structure IOInit where
  threshold : Option ThresholdV
  root : Option Nat
deriving DecidableEq, Repr

/-- An IntersectionObserver as constructed: its dispatch function identity
and its init dictionary. -/
structure IOPrimitive where
  cb : Nat
  init : IOInit
deriving DecidableEq, Repr

/-- createViewportObserver of the source: the root is the window's document
when isIframed(win) and needsRootBounds are both truthy, else undefined;
threshold is passed through as given. -/
def createViewportObserver (cb : Nat) (win : WinModel) (opts : IOOptions) : IOPrimitive :=
  let root :=
    if win.iframed && opts.needsRootBounds.getD false then some win.documentId
    else none
  { cb := cb, init := { threshold := opts.threshold, root := root } }

/-- An IntersectionObserverEntry as far as the multiplexer reads it: the
target element plus the reported visibility payload. -/
structure IOEntry where
  target : Element
  intersectionRatio : Rat
deriving DecidableEq, Repr

/-- A recorded call into the per-window primitives: construction of the
primitive for a window, or an observe or unobserve call on a primitive. -/
inductive PrimEvent where
  | create (w : Window) (obsId : Nat)
  | observeEl (obsId : Nat) (e : Element)
  | unobserveEl (obsId : Nat) (e : Element)
deriving DecidableEq, Repr

/-- The fixed environment: the getWin capability resolving an element's
owning window. -/
structure Env where
  getWin : Element → Window

/-- The module-level state of viewport-observer.js: the window-scoped
primitive registry (viewportObservers), the element-scoped callback
registry (viewportCallbacks), the set of elements currently observed by
the primitives (each element is only ever passed to its own window's
primitive), the allocation counter for primitive identities, and the
chronological log of primitive calls. -/
structure ObsState where
  viewportObservers : List (Window × Nat)
  viewportCallbacks : List (Element × List Callback)
  observed : List Element
  nextId : Nat
  log : List PrimEvent
deriving DecidableEq, Repr

/-- The state at module load: both registries empty, nothing observed. -/
def initState : ObsState :=
  { viewportObservers := [], viewportCallbacks := [], observed := [],
    nextId := 0, log := [] }

/-- observeIntersections of the source: lazily create the window's
primitive (its dispatch function is the shared multiplexing ioCallback),
append the callback to the element's list (creating the list when absent),
and call observe on the primitive. Observing an already observed element
leaves the observed set unchanged but is still logged as a call. -/
def observeIntersections (env : Env) (s : ObsState) (element : Element) (callback : Callback) :
    ObsState :=
  let win := env.getWin element
  let pair :=
    match alookup s.viewportObservers win with
    | some obsId => (s, obsId)
    | none =>
      ({ s with
          viewportObservers := aset s.viewportObservers win s.nextId,
          nextId := s.nextId + 1,
          log := s.log ++ [PrimEvent.create win s.nextId] }, s.nextId)
  let s1 := pair.1
  let obsId := pair.2
  let callbacks := (alookup s1.viewportCallbacks element).getD []
  let s2 :=
    { s1 with viewportCallbacks := aset s1.viewportCallbacks element (callbacks ++ [callback]) }
  { s2 with
    observed := if element ∈ s2.observed then s2.observed else element :: s2.observed,
    log := s2.log ++ [PrimEvent.observeEl obsId element] }

/-- unobserveIntersections of the source: look up the element's callback
list (absent: no-op), remove the first occurrence of the callback (not
found: no-op), and when the list became empty call unobserve on the
window's primitive (skipped if the primitive is absent) and delete the
element's registry entry. -/
def unobserveIntersections (env : Env) (s : ObsState) (element : Element) (callback : Callback) :
    ObsState :=
  match alookup s.viewportCallbacks element with
  | none => s
  | some callbacks =>
    let r := removeItem callbacks callback
    if r.2 = false then s
    else if r.1.length ≠ 0 then
      { s with viewportCallbacks := aset s.viewportCallbacks element r.1 }
    else
      let win := env.getWin element
      let s1 :=
        match alookup s.viewportObservers win with
        | some obsId =>
          { s with
              observed := removeFirst s.observed element,
              log := s.log ++ [PrimEvent.unobserveEl obsId element] }
        | none => s
      { s1 with viewportCallbacks := adel s1.viewportCallbacks element }

/-- Body of ioCallback of the source: walk the batch from the last entry to
the first carrying the seen set; an already seen target is skipped, an
unseen target is marked seen and, when it has a callback list, every
callback in it is invoked in list order with that entry. The result is the
chronological list of invocations. -/
def ioCallbackAux (s : ObsState) : List IOEntry → List Element → List (Callback × IOEntry)
  | [], _ => []
  | entry :: rest, seen =>
    if entry.target ∈ seen then ioCallbackAux s rest seen
    else
      (match alookup s.viewportCallbacks entry.target with
       | none => []
       | some callbacks => callbacks.map (fun c => (c, entry))) ++
        ioCallbackAux s rest (entry.target :: seen)

/-- ioCallback of the source: the reverse iteration of the batch is the
forward walk of the reversed batch with an initially empty seen set. The
registries are read, never written, so dispatch returns only the invocation
list. -/
def ioCallback (s : ObsState) (entries : List IOEntry) : List (Callback × IOEntry) :=
  ioCallbackAux s entries.reverse []

/-- An external interaction with the multiplexer: a registration, a
disposer call, or an asynchronous dispatch from a primitive (which leaves
the registries unchanged). -/
inductive MuxAction where
  | register (e : Element) (c : Callback)
  | dispose (e : Element) (c : Callback)
  | dispatch (entries : List IOEntry)
deriving DecidableEq, Repr

/-- Apply one interaction to the state. -/
def applyAction (env : Env) (s : ObsState) : MuxAction → ObsState
  | MuxAction.register e c => observeIntersections env s e c
  | MuxAction.dispose e c => unobserveIntersections env s e c
  | MuxAction.dispatch _ => s

/-- Run a sequence of interactions from a state. -/
def run (env : Env) : ObsState → List MuxAction → ObsState
  | s, [] => s
  | s, a :: rest => run env (applyAction env s a) rest

/-- C7: for every dispatch function, window and options, the constructed
primitive's root is the window's document exactly when needsRootBounds is
true and the window is iframed; the root is otherwise absent (it is always
either absent or that document); and the threshold option reaches the
primitive unmodified. -/
theorem createViewportObserver_root_and_threshold (cb : Nat) (win : WinModel)
    (opts : IOOptions) :
    ((createViewportObserver cb win opts).init.root = some win.documentId ↔
      (opts.needsRootBounds = some true ∧ win.iframed = true)) ∧
    ((createViewportObserver cb win opts).init.root = none ∨
      (createViewportObserver cb win opts).init.root = some win.documentId) ∧
    (createViewportObserver cb win opts).init.threshold = opts.threshold := by
  rcases win with ⟨ifr, doc⟩
  rcases opts with ⟨t, nrb⟩
  rcases nrb with _ | b
  · cases ifr <;> simp [createViewportObserver]
  · cases b <;> cases ifr <;> simp [createViewportObserver]

/-! ## Concrete instances used to evaluate the theorems -/

/-- An environment with a single window owning every element. -/
def env0 : Env := { getWin := fun _ => 0 }

/-- An environment in which each element is owned by the window of the same
number. -/
def envId : Env := { getWin := fun e => e }

/-- A registry state holding one subscriber, 5, for element 1. -/
def sW1 : ObsState :=
  { viewportObservers := [(0, 0)], viewportCallbacks := [(1, [5])],
    observed := [1], nextId := 1, log := [] }

/-- A registry state holding subscribers 4 then 5 for element 2. -/
def sW2 : ObsState :=
  { viewportObservers := [(0, 0)], viewportCallbacks := [(2, [4, 5])],
    observed := [2], nextId := 1, log := [] }

/-- The state after registering callback 7 on element 0 once. -/
def sW3 : ObsState := run env0 initState [MuxAction.register 0 7]

/-- The state after registering callback 7 on element 0 twice: the
duplicate registration the disposer semantics is probed on. -/
def sC5 : ObsState :=
  run env0 initState [MuxAction.register 0 7, MuxAction.register 0 7]

/-! ## Dispatch lemmas (ioCallback) -/

theorem filter_map_pair_eq (cbs : List Callback) (entry : IOEntry) (e : Element)
    (h : entry.target = e) :
    (cbs.map (fun c => (c, entry))).filter (fun p => p.2.target == e) =
      cbs.map (fun c => (c, entry)) := by
  induction cbs with
  | nil => rfl
  | cons c rest ih => simp [List.filter_cons, h, ih]

theorem filter_map_pair_ne (cbs : List Callback) (entry : IOEntry) (e : Element)
    (h : ¬ entry.target = e) :
    (cbs.map (fun c => (c, entry))).filter (fun p => p.2.target == e) = [] := by
  induction cbs with
  | nil => rfl
  | cons c rest ih => simp [List.filter_cons, h, ih]

theorem ioCallbackAux_filter_of_seen (s : ObsState) (l : List IOEntry)
    (seen : List Element) (e : Element) (h : e ∈ seen) :
    (ioCallbackAux s l seen).filter (fun p => p.2.target == e) = [] := by
  induction l generalizing seen with
  | nil => rfl
  | cons entry rest ih =>
    by_cases ht : entry.target ∈ seen
    · simp only [ioCallbackAux, if_pos ht]
      exact ih seen h
    · have hne : ¬ entry.target = e := fun he => ht (he ▸ h)
      simp only [ioCallbackAux, if_neg ht, List.filter_append]
      rw [ih (entry.target :: seen) (List.mem_cons_of_mem _ h)]
      cases halo : alookup s.viewportCallbacks entry.target with
      | none => simp
      | some cbs => simp [filter_map_pair_ne cbs entry e hne]

theorem ioCallbackAux_filter_find (s : ObsState) (l : List IOEntry)
    (seen : List Element) (e : Element) (cbs : List Callback) (en : IOEntry)
    (hs : e ∉ seen)
    (hc : alookup s.viewportCallbacks e = some cbs)
    (hf : l.find? (fun x => x.target == e) = some en) :
    (ioCallbackAux s l seen).filter (fun p => p.2.target == e) =
      cbs.map (fun c => (c, en)) := by
  induction l generalizing seen with
  | nil => simp [List.find?] at hf
  | cons entry rest ih =>
    by_cases ht : entry.target = e
    · have htb : (entry.target == e) = true := by simpa using ht
      simp only [List.find?, htb] at hf
      injection hf with hf
      subst hf
      have hts : ¬ entry.target ∈ seen := by rw [ht]; exact hs
      have hc2 : alookup s.viewportCallbacks entry.target = some cbs := by
        rw [ht]; exact hc
      simp only [ioCallbackAux, if_neg hts, List.filter_append, hc2]
      rw [filter_map_pair_eq cbs entry e ht,
        ioCallbackAux_filter_of_seen s rest (entry.target :: seen) e
          (by rw [ht]; exact List.mem_cons_self e seen),
        List.append_nil]
    · have htb : (entry.target == e) = false := by simpa using ht
      simp only [List.find?, htb] at hf
      by_cases ht2 : entry.target ∈ seen
      · simp only [ioCallbackAux, if_pos ht2]
        exact ih seen hs hf
      · have hs2 : e ∉ entry.target :: seen := by
          intro hm
          rcases List.mem_cons.mp hm with h1 | h1
          · exact ht h1.symm
          · exact hs h1
        simp only [ioCallbackAux, if_neg ht2, List.filter_append]
        rw [ih (entry.target :: seen) hs2 hf]
        cases halo : alookup s.viewportCallbacks entry.target with
        | none => simp
        | some cbs2 => simp [filter_map_pair_ne cbs2 entry e ht]

/-- C1: for a batch handled by the multiplexing dispatch callback and a
target element with registered subscribers, the invocations whose record
names that element are exactly one invocation per subscriber, each carrying
the most recent (latest by batch order) record for the element: earlier
records for the same element in the batch are skipped. -/
theorem ioCallback_dedup_last_wins (s : ObsState) (entries : List IOEntry)
    (e : Element) (cbs : List Callback) (en : IOEntry)
    (hc : alookup s.viewportCallbacks e = some cbs)
    (hf : entries.reverse.find? (fun x => x.target == e) = some en) :
    (ioCallback s entries).filter (fun p => p.2.target == e) =
      cbs.map (fun c => (c, en)) :=
  ioCallbackAux_filter_find s entries.reverse [] e cbs en (List.not_mem_nil e) hc hf

/-- Witness for C1: element 1 has subscriber 5 and the batch reports
element 1 twice; only the later record, with ratio 1, is delivered, and it
is delivered once. -/
theorem ioCallback_dedup_last_wins_witness :
    (ioCallback sW1 [⟨1, 0⟩, ⟨1, 1⟩]).filter (fun p => p.2.target == 1) =
      [5].map (fun c => (c, (⟨1, 1⟩ : IOEntry))) :=
  ioCallback_dedup_last_wins sW1 [⟨1, 0⟩, ⟨1, 1⟩] 1 [5] ⟨1, 1⟩ rfl rfl

/-- C2: on a dispatch naming an element, every callback registered for that
element is invoked, in registration order, and each invocation receives the
single selected (most recent) record for the element. -/
theorem ioCallback_all_callbacks_in_order (s : ObsState) (entries : List IOEntry)
    (e : Element) (cbs : List Callback) (en : IOEntry)
    (hc : alookup s.viewportCallbacks e = some cbs)
    (hf : entries.reverse.find? (fun x => x.target == e) = some en) :
    ((ioCallback s entries).filter (fun p => p.2.target == e)).map Prod.fst = cbs ∧
    ∀ p ∈ (ioCallback s entries).filter (fun p => p.2.target == e), p.2 = en := by
  have h := ioCallbackAux_filter_find s entries.reverse [] e cbs en (List.not_mem_nil e) hc hf
  constructor
  · rw [ioCallback, h, List.map_map]
    exact List.map_id cbs
  · intro p hp
    rw [ioCallback, h] at hp
    rcases List.mem_map.mp hp with ⟨c, _, rfl⟩
    rfl

/-- Witness for C2: element 2 has the two distinct subscribers 4 and 5 in
registration order; a dispatch naming element 2 invokes 4 then 5, each with
the reported record. -/
theorem ioCallback_all_callbacks_in_order_witness :
    ((ioCallback sW2 [⟨2, 37⟩]).filter (fun p => p.2.target == 2)).map Prod.fst = [4, 5] ∧
    ∀ p ∈ (ioCallback sW2 [⟨2, 37⟩]).filter (fun p => p.2.target == 2),
      p.2 = (⟨2, 37⟩ : IOEntry) :=
  ioCallback_all_callbacks_in_order sW2 [⟨2, 37⟩] 2 [4, 5] ⟨2, 37⟩ rfl rfl

/-! ## Equational descriptions of registration and unregistration -/

theorem observeIntersections_eq_of_some (env : Env) (s : ObsState) (e : Element)
    (c : Callback) (obsId : Nat)
    (h : alookup s.viewportObservers (env.getWin e) = some obsId) :
    observeIntersections env s e c =
      { viewportObservers := s.viewportObservers,
        viewportCallbacks :=
          aset s.viewportCallbacks e ((alookup s.viewportCallbacks e).getD [] ++ [c]),
        observed := if e ∈ s.observed then s.observed else e :: s.observed,
        nextId := s.nextId,
        log := s.log ++ [PrimEvent.observeEl obsId e] } := by
  simp only [observeIntersections, h]

theorem observeIntersections_eq_of_none (env : Env) (s : ObsState) (e : Element)
    (c : Callback)
    (h : alookup s.viewportObservers (env.getWin e) = none) :
    observeIntersections env s e c =
      { viewportObservers := aset s.viewportObservers (env.getWin e) s.nextId,
        viewportCallbacks :=
          aset s.viewportCallbacks e ((alookup s.viewportCallbacks e).getD [] ++ [c]),
        observed := if e ∈ s.observed then s.observed else e :: s.observed,
        nextId := s.nextId + 1,
        log := (s.log ++ [PrimEvent.create (env.getWin e) s.nextId]) ++
          [PrimEvent.observeEl s.nextId e] } := by
  simp only [observeIntersections, h]

theorem unobserveIntersections_eq_no_entry (env : Env) (s : ObsState) (e : Element)
    (c : Callback) (h : alookup s.viewportCallbacks e = none) :
    unobserveIntersections env s e c = s := by
  simp only [unobserveIntersections, h]

theorem unobserveIntersections_eq_not_found (env : Env) (s : ObsState) (e : Element)
    (c : Callback) (cbs : List Callback)
    (h : alookup s.viewportCallbacks e = some cbs) (hm : c ∉ cbs) :
    unobserveIntersections env s e c = s := by
  simp [unobserveIntersections, h, removeItem, hm]

theorem unobserveIntersections_eq_remaining (env : Env) (s : ObsState) (e : Element)
    (c : Callback) (cbs : List Callback)
    (h : alookup s.viewportCallbacks e = some cbs) (hm : c ∈ cbs)
    (hne : removeFirst cbs c ≠ []) :
    unobserveIntersections env s e c =
      { s with viewportCallbacks := aset s.viewportCallbacks e (removeFirst cbs c) } := by
  simp [unobserveIntersections, h, removeItem, hm, hne]

theorem unobserveIntersections_eq_last_some (env : Env) (s : ObsState) (e : Element)
    (c : Callback) (cbs : List Callback) (obsId : Nat)
    (h : alookup s.viewportCallbacks e = some cbs) (hm : c ∈ cbs)
    (hnil : removeFirst cbs c = [])
    (ho : alookup s.viewportObservers (env.getWin e) = some obsId) :
    unobserveIntersections env s e c =
      { s with
          viewportCallbacks := adel s.viewportCallbacks e,
          observed := removeFirst s.observed e,
          log := s.log ++ [PrimEvent.unobserveEl obsId e] } := by
  simp [unobserveIntersections, h, removeItem, hm, hnil, ho]

theorem unobserveIntersections_eq_last_none (env : Env) (s : ObsState) (e : Element)
    (c : Callback) (cbs : List Callback)
    (h : alookup s.viewportCallbacks e = some cbs) (hm : c ∈ cbs)
    (hnil : removeFirst cbs c = [])
    (ho : alookup s.viewportObservers (env.getWin e) = none) :
    unobserveIntersections env s e c =
      { s with viewportCallbacks := adel s.viewportCallbacks e } := by
  simp [unobserveIntersections, h, removeItem, hm, hnil, ho]

theorem observe_callbacks_lookup (env : Env) (s : ObsState) (e : Element) (c : Callback) :
    alookup (observeIntersections env s e c).viewportCallbacks e =
      some ((alookup s.viewportCallbacks e).getD [] ++ [c]) := by
  cases ho : alookup s.viewportObservers (env.getWin e) with
  | none =>
    rw [observeIntersections_eq_of_none env s e c ho]
    exact alookup_aset_self s.viewportCallbacks e _
  | some obsId =>
    rw [observeIntersections_eq_of_some env s e c obsId ho]
    exact alookup_aset_self s.viewportCallbacks e _

/-! ## Unregistration claims -/

/-- C3: when a disposer call removes the last remaining callback of an
element, exactly one unobserve call for the element is issued to its
window's primitive and the element's registry entry is deleted; when at
least one other callback remains, no primitive call is made and the entry
is retained with the remaining callbacks. -/
theorem unobserve_last_vs_remaining (env : Env) (s : ObsState) (e : Element)
    (c : Callback) (cbs : List Callback) (obsId : Nat)
    (hc : alookup s.viewportCallbacks e = some cbs)
    (hm : c ∈ cbs)
    (ho : alookup s.viewportObservers (env.getWin e) = some obsId) :
    (removeFirst cbs c = [] →
      (unobserveIntersections env s e c).log = s.log ++ [PrimEvent.unobserveEl obsId e] ∧
      alookup (unobserveIntersections env s e c).viewportCallbacks e = none) ∧
    (removeFirst cbs c ≠ [] →
      (unobserveIntersections env s e c).log = s.log ∧
      alookup (unobserveIntersections env s e c).viewportCallbacks e =
        some (removeFirst cbs c)) := by
  constructor
  · intro hnil
    rw [unobserveIntersections_eq_last_some env s e c cbs obsId hc hm hnil ho]
    exact ⟨rfl, alookup_adel_self s.viewportCallbacks e⟩
  · intro hne
    rw [unobserveIntersections_eq_remaining env s e c cbs hc hm hne]
    exact ⟨rfl, alookup_aset_self s.viewportCallbacks e (removeFirst cbs c)⟩

/-- Witness for C3: element 0 has only callback 7; disposing it appends
exactly one unobserve event for primitive 0 and deletes the entry. -/
theorem unobserve_last_vs_remaining_witness :
    (unobserveIntersections env0 sW3 0 7).log = sW3.log ++ [PrimEvent.unobserveEl 0 0] ∧
    alookup (unobserveIntersections env0 sW3 0 7).viewportCallbacks 0 = none :=
  (unobserve_last_vs_remaining env0 sW3 0 7 [7] 0 rfl (List.mem_singleton.mpr rfl) rfl).1 rfl

/-- C5 fails as stated: with the same callback registered twice for the
same element, the disposer of the first registration called a second time
is not a no-op — it removes the remaining occurrence, deletes the registry
entry and issues an unobserve call. -/
theorem disposer_second_call_changes_state :
    unobserveIntersections env0 (unobserveIntersections env0 sC5 0 7) 0 7 ≠
      unobserveIntersections env0 sC5 0 7 := by
  decide

/-- C5 (amended): a disposer call is a no-op whenever the element-callback
pair is not found, so a second disposer call is a no-op provided the
callback occurred at most once in the element's list when the first call
ran. -/
theorem disposer_idempotent_when_pair_unique (env : Env) (s : ObsState) (e : Element)
    (c : Callback)
    (h : ((alookup s.viewportCallbacks e).getD []).count c ≤ 1) :
    unobserveIntersections env (unobserveIntersections env s e c) e c =
      unobserveIntersections env s e c := by
  cases hc : alookup s.viewportCallbacks e with
  | none =>
    rw [unobserveIntersections_eq_no_entry env s e c hc,
      unobserveIntersections_eq_no_entry env s e c hc]
  | some cbs =>
    rw [hc, Option.getD_some] at h
    by_cases hm : c ∈ cbs
    · have hnm : c ∉ removeFirst cbs c := not_mem_removeFirst_of_count_le_one cbs c h
      by_cases hnil : removeFirst cbs c = []
      · cases ho : alookup s.viewportObservers (env.getWin e) with
        | some obsId =>
          rw [unobserveIntersections_eq_last_some env s e c cbs obsId hc hm hnil ho]
          exact unobserveIntersections_eq_no_entry env _ e c
            (alookup_adel_self s.viewportCallbacks e)
        | none =>
          rw [unobserveIntersections_eq_last_none env s e c cbs hc hm hnil ho]
          exact unobserveIntersections_eq_no_entry env _ e c
            (alookup_adel_self s.viewportCallbacks e)
      · rw [unobserveIntersections_eq_remaining env s e c cbs hc hm hnil]
        exact unobserveIntersections_eq_not_found env _ e c (removeFirst cbs c)
          (alookup_aset_self s.viewportCallbacks e (removeFirst cbs c)) hnm
    · rw [unobserveIntersections_eq_not_found env s e c cbs hc hm,
        unobserveIntersections_eq_not_found env s e c cbs hc hm]

/-- Witness for the amended C5: callback 7 registered exactly once for
element 0; the second disposer call is a no-op. -/
theorem disposer_idempotent_witness :
    unobserveIntersections env0 (unobserveIntersections env0 sW3 0 7) 0 7 =
      unobserveIntersections env0 sW3 0 7 :=
  disposer_idempotent_when_pair_unique env0 sW3 0 7 (by decide)

/-- C8: registering the same callback twice for one element stores two
separate entries; a dispatch naming the element fires the callback twice,
once per registration, with the selected record; and a single disposer
call removes exactly one occurrence, leaving the other registration
active. -/
theorem duplicate_registration_multiset (env : Env) (s : ObsState) (e : Element)
    (c : Callback)
    (h : alookup s.viewportCallbacks e = none) :
    alookup (observeIntersections env (observeIntersections env s e c) e
        c).viewportCallbacks e = some [c, c] ∧
    (∀ entries en, entries.reverse.find? (fun x => x.target == e) = some en →
      (ioCallback (observeIntersections env (observeIntersections env s e c) e c)
          entries).filter (fun p => p.2.target == e) = [(c, en), (c, en)]) ∧
    alookup (unobserveIntersections env
        (observeIntersections env (observeIntersections env s e c) e c) e
        c).viewportCallbacks e = some [c] := by
  have h1 : alookup (observeIntersections env s e c).viewportCallbacks e = some [c] := by
    rw [observe_callbacks_lookup env s e c, h]
    rfl
  have h2 : alookup (observeIntersections env (observeIntersections env s e c) e
      c).viewportCallbacks e = some [c, c] := by
    rw [observe_callbacks_lookup env _ e c, h1]
    rfl
  refine ⟨h2, fun entries en hf => ?_, ?_⟩
  · exact ioCallbackAux_filter_find _ entries.reverse [] e [c, c] en
      (List.not_mem_nil e) h2 hf
  · have hm : c ∈ [c, c] := List.mem_cons_self c [c]
    have hne : removeFirst [c, c] c ≠ [] := by simp [removeFirst]
    rw [unobserveIntersections_eq_remaining env _ e c [c, c] h2 hm hne,
      alookup_aset_self]
    simp [removeFirst]

/-- Witness for C8 at the empty initial registry, element 0, callback 7:
after two registrations a single disposer call leaves one entry. -/
theorem duplicate_registration_multiset_witness :
    alookup (unobserveIntersections env0
        (observeIntersections env0 (observeIntersections env0 initState 0 7) 0 7) 0
        7).viewportCallbacks 0 = some [7] :=
  (duplicate_registration_multiset env0 initState 0 7 rfl).2.2

/-! ## Invariant A on reachable states -/

theorem mem_removeFirst_of_ne {α : Type} [DecidableEq α] (l : List α) (a x : α)
    (hx : x ≠ a) : x ∈ removeFirst l a ↔ x ∈ l := by
  induction l with
  | nil => exact Iff.rfl
  | cons y ys ih =>
    by_cases hy : y = a
    · subst hy
      simp only [removeFirst, if_pos rfl, List.mem_cons]
      constructor
      · exact fun h => Or.inr h
      · rintro (h | h)
        · exact absurd h hx
        · exact h
    · simp only [removeFirst, if_neg hy, List.mem_cons, ih]

theorem nodup_removeFirst {α : Type} [DecidableEq α] (l : List α) (a : α)
    (h : l.Nodup) : (removeFirst l a).Nodup := by
  induction l with
  | nil => exact h
  | cons y ys ih =>
    rcases List.nodup_cons.mp h with ⟨hy, hys⟩
    by_cases hya : y = a
    · subst hya
      simpa [removeFirst] using hys
    · simp only [removeFirst, if_neg hya]
      exact List.nodup_cons.mpr
        ⟨fun hm => hy ((mem_removeFirst_of_ne ys a y hya).mp hm), ih hys⟩

theorem mem_insertObserved (l : List Element) (e x : Element) :
    x ∈ (if e ∈ l then l else e :: l) ↔ x = e ∨ x ∈ l := by
  by_cases he : e ∈ l
  · rw [if_pos he]
    constructor
    · exact fun h => Or.inr h
    · rintro (rfl | h)
      · exact he
      · exact h
  · rw [if_neg he]
    exact List.mem_cons

theorem nodup_insertObserved (l : List Element) (e : Element) (h : l.Nodup) :
    (if e ∈ l then l else e :: l).Nodup := by
  by_cases he : e ∈ l
  · rwa [if_pos he]
  · rw [if_neg he]
    exact List.nodup_cons.mpr ⟨he, h⟩

/-- Invariant A of the spec: an element appears as a key in the callback
registry exactly when it is currently under active observation (observe
has been called for it on its window's primitive without a subsequent
unobserve; the observed field collects exactly those elements). -/
def InvariantA (s : ObsState) : Prop :=
  ∀ e : Element, (alookup s.viewportCallbacks e).isSome ↔ e ∈ s.observed

/-- The part of Invariant B the proofs rely on: the window of every
callback-registry key has a primitive. -/
def callbackKeysHavePrimitive (env : Env) (s : ObsState) : Prop :=
  ∀ e : Element, (alookup s.viewportCallbacks e).isSome →
    (alookup s.viewportObservers (env.getWin e)).isSome

/-- The inductive invariant: Invariant A, the needed part of Invariant B,
and no duplicates in the observed set. -/
def GoodState (env : Env) (s : ObsState) : Prop :=
  InvariantA s ∧ callbackKeysHavePrimitive env s ∧ s.observed.Nodup

theorem goodState_observe (env : Env) (s : ObsState) (e : Element) (c : Callback)
    (h : GoodState env s) : GoodState env (observeIntersections env s e c) := by
  obtain ⟨hA, hB, hN⟩ := h
  cases ho : alookup s.viewportObservers (env.getWin e) with
  | some obsId =>
    rw [observeIntersections_eq_of_some env s e c obsId ho]
    refine ⟨fun x => ?_, fun x hx2 => ?_, nodup_insertObserved s.observed e hN⟩
    · by_cases hx : x = e
      · subst hx
        rw [alookup_aset_self, mem_insertObserved]
        simp
      · rw [alookup_aset_ne s.viewportCallbacks e x _ hx, mem_insertObserved, hA x]
        constructor
        · exact fun h2 => Or.inr h2
        · rintro (h2 | h2)
          · exact absurd h2 hx
          · exact h2
    · by_cases hx : x = e
      · subst hx
        rw [ho]
        rfl
      · rw [alookup_aset_ne s.viewportCallbacks e x _ hx] at hx2
        exact hB x hx2
  | none =>
    rw [observeIntersections_eq_of_none env s e c ho]
    refine ⟨fun x => ?_, fun x hx2 => ?_, nodup_insertObserved s.observed e hN⟩
    · by_cases hx : x = e
      · subst hx
        rw [alookup_aset_self, mem_insertObserved]
        simp
      · rw [alookup_aset_ne s.viewportCallbacks e x _ hx, mem_insertObserved, hA x]
        constructor
        · exact fun h2 => Or.inr h2
        · rintro (h2 | h2)
          · exact absurd h2 hx
          · exact h2
    · by_cases hw : env.getWin x = env.getWin e
      · rw [hw, alookup_aset_self]
        rfl
      · rw [alookup_aset_ne s.viewportObservers (env.getWin e) (env.getWin x) s.nextId hw]
        by_cases hx : x = e
        · exact absurd (by rw [hx]) hw
        · rw [alookup_aset_ne s.viewportCallbacks e x _ hx] at hx2
          exact hB x hx2

theorem goodState_unobserve (env : Env) (s : ObsState) (e : Element) (c : Callback)
    (h : GoodState env s) : GoodState env (unobserveIntersections env s e c) := by
  obtain ⟨hA, hB, hN⟩ := h
  cases hc : alookup s.viewportCallbacks e with
  | none =>
    rw [unobserveIntersections_eq_no_entry env s e c hc]
    exact ⟨hA, hB, hN⟩
  | some cbs =>
    by_cases hm : c ∈ cbs
    · by_cases hnil : removeFirst cbs c = []
      · have hBs : (alookup s.viewportObservers (env.getWin e)).isSome :=
          hB e (by rw [hc]; rfl)
        cases ho : alookup s.viewportObservers (env.getWin e) with
        | none =>
          rw [ho] at hBs
          simp at hBs
        | some obsId =>
          rw [unobserveIntersections_eq_last_some env s e c cbs obsId hc hm hnil ho]
          refine ⟨fun x => ?_, fun x hx2 => ?_, nodup_removeFirst s.observed e hN⟩
          · by_cases hx : x = e
            · subst hx
              rw [alookup_adel_self]
              constructor
              · intro h2
                simp at h2
              · intro h2
                exact absurd h2 (not_mem_removeFirst_of_count_le_one s.observed x
                  (List.nodup_iff_count_le_one.mp hN x))
            · rw [alookup_adel_ne s.viewportCallbacks e x hx,
                mem_removeFirst_of_ne s.observed e x hx]
              exact hA x
          · by_cases hx : x = e
            · subst hx
              rw [alookup_adel_self] at hx2
              simp at hx2
            · rw [alookup_adel_ne s.viewportCallbacks e x hx] at hx2
              exact hB x hx2
      · rw [unobserveIntersections_eq_remaining env s e c cbs hc hm hnil]
        refine ⟨fun x => ?_, fun x hx2 => ?_, hN⟩
        · by_cases hx : x = e
          · subst hx
            rw [alookup_aset_self]
            constructor
            · intro _
              exact (hA x).mp (by rw [hc]; rfl)
            · intro _
              rfl
          · rw [alookup_aset_ne s.viewportCallbacks e x _ hx]
            exact hA x
        · by_cases hx : x = e
          · subst hx
            exact hB x (by rw [hc]; rfl)
          · rw [alookup_aset_ne s.viewportCallbacks e x _ hx] at hx2
            exact hB x hx2
    · rw [unobserveIntersections_eq_not_found env s e c cbs hc hm]
      exact ⟨hA, hB, hN⟩

theorem goodState_applyAction (env : Env) (s : ObsState) (a : MuxAction)
    (h : GoodState env s) : GoodState env (applyAction env s a) := by
  cases a with
  | register e c => exact goodState_observe env s e c h
  | dispose e c => exact goodState_unobserve env s e c h
  | dispatch entries => exact h

theorem goodState_run (env : Env) (s : ObsState) (acts : List MuxAction)
    (h : GoodState env s) : GoodState env (run env s acts) := by
  induction acts generalizing s with
  | nil => exact h
  | cons a rest ih => exact ih (applyAction env s a) (goodState_applyAction env s a h)

theorem goodState_init (env : Env) : GoodState env initState := by
  refine ⟨fun e => ?_, fun e h => ?_, List.nodup_nil⟩
  · constructor
    · intro h
      simp [initState, alookup] at h
    · intro h
      simp [initState] at h
  · simp [initState, alookup] at h

/-- C4: Invariant A holds in every state reachable from the initial state
by any sequence of registrations, disposer calls and asynchronous
dispatches: an element appears as a key of the callback registry exactly
when it is currently under active observation by its window's primitive
(observe has been called for it without a subsequent unobserve). -/
theorem invariantA_reachable (env : Env) (acts : List MuxAction) :
    InvariantA (run env initState acts) :=
  (goodState_run env initState acts (goodState_init env)).1

/-! ## One primitive per window -/

/-- How many construction events for a given window the log holds. -/
def countCreates (log : List PrimEvent) (w : Window) : Nat :=
  match log with
  | [] => 0
  | PrimEvent.create w2 _ :: rest => (if w2 = w then 1 else 0) + countCreates rest w
  | _ :: rest => countCreates rest w

theorem countCreates_append (l1 l2 : List PrimEvent) (w : Window) :
    countCreates (l1 ++ l2) w = countCreates l1 w + countCreates l2 w := by
  induction l1 with
  | nil => simp [countCreates]
  | cons ev rest ih =>
    cases ev with
    | create w2 i =>
      show (if w2 = w then 1 else 0) + countCreates (rest ++ l2) w =
        ((if w2 = w then 1 else 0) + countCreates rest w) + countCreates l2 w
      rw [ih, Nat.add_assoc]
    | observeEl i e =>
      show countCreates (rest ++ l2) w = countCreates rest w + countCreates l2 w
      exact ih
    | unobserveEl i e =>
      show countCreates (rest ++ l2) w = countCreates rest w + countCreates l2 w
      exact ih

theorem countCreates_create (w2 : Window) (i : Nat) (w : Window) :
    countCreates [PrimEvent.create w2 i] w = if w2 = w then 1 else 0 := by
  show (if w2 = w then 1 else 0) + 0 = if w2 = w then 1 else 0
  rw [Nat.add_zero]

theorem countCreates_observeEl (i : Nat) (e : Element) (w : Window) :
    countCreates [PrimEvent.observeEl i e] w = 0 := rfl

theorem countCreates_unobserveEl (i : Nat) (e : Element) (w : Window) :
    countCreates [PrimEvent.unobserveEl i e] w = 0 := rfl

theorem unobserve_observers_eq (env : Env) (s : ObsState) (e : Element) (c : Callback) :
    (unobserveIntersections env s e c).viewportObservers = s.viewportObservers := by
  cases hc : alookup s.viewportCallbacks e with
  | none => rw [unobserveIntersections_eq_no_entry env s e c hc]
  | some cbs =>
    by_cases hm : c ∈ cbs
    · by_cases hnil : removeFirst cbs c = []
      · cases ho : alookup s.viewportObservers (env.getWin e) with
        | some obsId =>
          rw [unobserveIntersections_eq_last_some env s e c cbs obsId hc hm hnil ho]
        | none => rw [unobserveIntersections_eq_last_none env s e c cbs hc hm hnil ho]
      · rw [unobserveIntersections_eq_remaining env s e c cbs hc hm hnil]
    · rw [unobserveIntersections_eq_not_found env s e c cbs hc hm]

theorem unobserve_nextId_eq (env : Env) (s : ObsState) (e : Element) (c : Callback) :
    (unobserveIntersections env s e c).nextId = s.nextId := by
  cases hc : alookup s.viewportCallbacks e with
  | none => rw [unobserveIntersections_eq_no_entry env s e c hc]
  | some cbs =>
    by_cases hm : c ∈ cbs
    · by_cases hnil : removeFirst cbs c = []
      · cases ho : alookup s.viewportObservers (env.getWin e) with
        | some obsId =>
          rw [unobserveIntersections_eq_last_some env s e c cbs obsId hc hm hnil ho]
        | none => rw [unobserveIntersections_eq_last_none env s e c cbs hc hm hnil ho]
      · rw [unobserveIntersections_eq_remaining env s e c cbs hc hm hnil]
    · rw [unobserveIntersections_eq_not_found env s e c cbs hc hm]

theorem unobserve_countCreates (env : Env) (s : ObsState) (e : Element) (c : Callback)
    (w : Window) :
    countCreates (unobserveIntersections env s e c).log w = countCreates s.log w := by
  cases hc : alookup s.viewportCallbacks e with
  | none => rw [unobserveIntersections_eq_no_entry env s e c hc]
  | some cbs =>
    by_cases hm : c ∈ cbs
    · by_cases hnil : removeFirst cbs c = []
      · cases ho : alookup s.viewportObservers (env.getWin e) with
        | some obsId =>
          rw [unobserveIntersections_eq_last_some env s e c cbs obsId hc hm hnil ho]
          show countCreates (s.log ++ [PrimEvent.unobserveEl obsId e]) w =
            countCreates s.log w
          rw [countCreates_append, countCreates_unobserveEl, Nat.add_zero]
        | none => rw [unobserveIntersections_eq_last_none env s e c cbs hc hm hnil ho]
      · rw [unobserveIntersections_eq_remaining env s e c cbs hc hm hnil]
    · rw [unobserveIntersections_eq_not_found env s e c cbs hc hm]

/-- The primitive-registry invariant: every assigned primitive identity is
below the allocation counter, identities are assigned injectively across
windows, and the log holds exactly one construction event for a window
exactly when that window has a primitive. -/
def PrimRegOk (s : ObsState) : Prop :=
  (∀ w obsId, alookup s.viewportObservers w = some obsId → obsId < s.nextId) ∧
  (∀ w1 w2 obsId, alookup s.viewportObservers w1 = some obsId →
    alookup s.viewportObservers w2 = some obsId → w1 = w2) ∧
  (∀ w, countCreates s.log w =
    if (alookup s.viewportObservers w).isSome then 1 else 0)

theorem primRegOk_observe (env : Env) (s : ObsState) (e : Element) (c : Callback)
    (h : PrimRegOk s) : PrimRegOk (observeIntersections env s e c) := by
  obtain ⟨hBound, hInj, hCount⟩ := h
  cases ho : alookup s.viewportObservers (env.getWin e) with
  | some obsId =>
    have hObs : (observeIntersections env s e c).viewportObservers =
        s.viewportObservers := by
      rw [observeIntersections_eq_of_some env s e c obsId ho]
    have hNext : (observeIntersections env s e c).nextId = s.nextId := by
      rw [observeIntersections_eq_of_some env s e c obsId ho]
    have hLog : (observeIntersections env s e c).log =
        s.log ++ [PrimEvent.observeEl obsId e] := by
      rw [observeIntersections_eq_of_some env s e c obsId ho]
    refine ⟨?_, ?_, fun w => ?_⟩
    · intro w i hw
      rw [hObs] at hw
      rw [hNext]
      exact hBound w i hw
    · intro w1 w2 i h1 h2
      rw [hObs] at h1 h2
      exact hInj w1 w2 i h1 h2
    · rw [hLog, hObs, countCreates_append, countCreates_observeEl, Nat.add_zero,
        hCount w]
  | none =>
    have hObs : (observeIntersections env s e c).viewportObservers =
        aset s.viewportObservers (env.getWin e) s.nextId := by
      rw [observeIntersections_eq_of_none env s e c ho]
    have hNext : (observeIntersections env s e c).nextId = s.nextId + 1 := by
      rw [observeIntersections_eq_of_none env s e c ho]
    have hLog : (observeIntersections env s e c).log =
        (s.log ++ [PrimEvent.create (env.getWin e) s.nextId]) ++
          [PrimEvent.observeEl s.nextId e] := by
      rw [observeIntersections_eq_of_none env s e c ho]
    refine ⟨?_, ?_, fun w => ?_⟩
    · intro w i hw
      rw [hObs] at hw
      rw [hNext]
      by_cases hwe : w = env.getWin e
      · subst hwe
        rw [alookup_aset_self] at hw
        injection hw with hw
        omega
      · rw [alookup_aset_ne s.viewportObservers (env.getWin e) w s.nextId hwe] at hw
        exact Nat.lt_trans (hBound w i hw) (Nat.lt_succ_self s.nextId)
    · intro w1 w2 i h1 h2
      rw [hObs] at h1 h2
      by_cases hw1 : w1 = env.getWin e <;> by_cases hw2 : w2 = env.getWin e
      · rw [hw1, hw2]
      · subst hw1
        rw [alookup_aset_self] at h1
        injection h1 with h1
        rw [alookup_aset_ne s.viewportObservers (env.getWin e) w2 s.nextId hw2] at h2
        have hb := hBound w2 i h2
        omega
      · subst hw2
        rw [alookup_aset_self] at h2
        injection h2 with h2
        rw [alookup_aset_ne s.viewportObservers (env.getWin e) w1 s.nextId hw1] at h1
        have hb := hBound w1 i h1
        omega
      · rw [alookup_aset_ne s.viewportObservers (env.getWin e) w1 s.nextId hw1] at h1
        rw [alookup_aset_ne s.viewportObservers (env.getWin e) w2 s.nextId hw2] at h2
        exact hInj w1 w2 i h1 h2
    · rw [hLog, hObs, countCreates_append, countCreates_append,
        countCreates_observeEl, Nat.add_zero, countCreates_create, hCount w]
      by_cases hwe : env.getWin e = w
      · rw [if_pos hwe, ← hwe, ho, alookup_aset_self]
        simp
      · have hwe2 : w ≠ env.getWin e := fun h2 => hwe h2.symm
        rw [if_neg hwe,
          alookup_aset_ne s.viewportObservers (env.getWin e) w s.nextId hwe2,
          Nat.add_zero]

theorem primRegOk_unobserve (env : Env) (s : ObsState) (e : Element) (c : Callback)
    (h : PrimRegOk s) : PrimRegOk (unobserveIntersections env s e c) := by
  obtain ⟨hBound, hInj, hCount⟩ := h
  refine ⟨?_, ?_, ?_⟩
  · intro w i hw
    rw [unobserve_observers_eq] at hw
    rw [unobserve_nextId_eq]
    exact hBound w i hw
  · intro w1 w2 i h1 h2
    rw [unobserve_observers_eq] at h1 h2
    exact hInj w1 w2 i h1 h2
  · intro w
    rw [unobserve_countCreates, unobserve_observers_eq]
    exact hCount w

theorem primRegOk_applyAction (env : Env) (s : ObsState) (a : MuxAction)
    (h : PrimRegOk s) : PrimRegOk (applyAction env s a) := by
  cases a with
  | register e c => exact primRegOk_observe env s e c h
  | dispose e c => exact primRegOk_unobserve env s e c h
  | dispatch entries => exact h

theorem primRegOk_run (env : Env) (s : ObsState) (acts : List MuxAction)
    (h : PrimRegOk s) : PrimRegOk (run env s acts) := by
  induction acts generalizing s with
  | nil => exact h
  | cons a rest ih => exact ih (applyAction env s a) (primRegOk_applyAction env s a h)

theorem primRegOk_init : PrimRegOk initState := by
  refine ⟨?_, ?_, ?_⟩
  · intro w i hw
    simp [initState, alookup] at hw
  · intro w1 w2 i h1 h2
    simp [initState, alookup] at h1
  · intro w
    simp [initState, alookup, countCreates]

theorem observers_persist_applyAction (env : Env) (s : ObsState) (a : MuxAction)
    (w : Window) (obsId : Nat) (h : alookup s.viewportObservers w = some obsId) :
    alookup (applyAction env s a).viewportObservers w = some obsId := by
  cases a with
  | register e c =>
    show alookup (observeIntersections env s e c).viewportObservers w = some obsId
    cases ho : alookup s.viewportObservers (env.getWin e) with
    | some i =>
      have hObs : (observeIntersections env s e c).viewportObservers =
          s.viewportObservers := by
        rw [observeIntersections_eq_of_some env s e c i ho]
      rw [hObs]
      exact h
    | none =>
      have hObs : (observeIntersections env s e c).viewportObservers =
          aset s.viewportObservers (env.getWin e) s.nextId := by
        rw [observeIntersections_eq_of_none env s e c ho]
      rw [hObs]
      by_cases hw : w = env.getWin e
      · rw [← hw] at ho
        rw [ho] at h
        simp at h
      · rw [alookup_aset_ne s.viewportObservers (env.getWin e) w s.nextId hw]
        exact h
  | dispose e c =>
    show alookup (unobserveIntersections env s e c).viewportObservers w = some obsId
    rw [unobserve_observers_eq]
    exact h
  | dispatch entries => exact h

theorem observers_persist_run (env : Env) (s : ObsState) (acts : List MuxAction)
    (w : Window) (obsId : Nat) (h : alookup s.viewportObservers w = some obsId) :
    alookup (run env s acts).viewportObservers w = some obsId := by
  induction acts generalizing s with
  | nil => exact h
  | cons a rest ih =>
    exact ih (applyAction env s a) (observers_persist_applyAction env s a w obsId h)

theorem run_append (env : Env) (s : ObsState) (l1 l2 : List MuxAction) :
    run env s (l1 ++ l2) = run env (run env s l1) l2 := by
  induction l1 generalizing s with
  | nil => rfl
  | cons a rest ih =>
    simp only [List.cons_append, run]
    exact ih (applyAction env s a)

/-- C6: in every reachable state the primitive registry assigns identities
injectively (elements owned by two different windows use two distinct
primitives), the log holds exactly one construction event for a window
exactly when that window has a primitive (so the first registration for a
window created it, and at most one is ever created per window), and once a
window has a primitive every later interaction leaves that same primitive
in place, so later registrations reuse it. -/
theorem one_primitive_per_window (env : Env) (acts : List MuxAction) :
    PrimRegOk (run env initState acts) ∧
    ∀ w obsId more, alookup (run env initState acts).viewportObservers w = some obsId →
      alookup (run env initState (acts ++ more)).viewportObservers w = some obsId := by
  constructor
  · exact primRegOk_run env initState acts primRegOk_init
  · intro w obsId more h
    rw [run_append]
    exact observers_persist_run env (run env initState acts) more w obsId h
